import Mathlib

/-!
Shallow embedding of the GUARD semantic password-recovery backend
(`guard_server.py`): the text normalizer `clean_text`, the similarity
scorer `calculate_similarity`, and the `/verify` state machine with its
attempt/lockout tracker and clarification context, together with the
`/enroll` and `/update_account` endpoints.

External collaborators (bcrypt, the sentence-transformer embedder, cosine
similarity, JSON vector decoding) are opaque function parameters.
Timestamps and similarity scores are modelled as rationals; SQLite rows
are modelled as total maps from `user_id` to optional records.
-/

namespace Guard

/-- Whitespace class of Python's regex `\s` on `str` and of `str.strip()`
(Py_UNICODE_ISSPACE): tab..carriage-return, the C1 separators 0x1C-0x1F,
space, NEL, NBSP and the Unicode space separators. -/
def isPySpace (c : Char) : Bool :=
  let n := c.toNat
  (n = 0x20) || (0x09 ≤ n && n ≤ 0x0D) || (0x1C ≤ n && n ≤ 0x1F) ||
  (n = 0x85) || (n = 0xA0) || (n = 0x1680) ||
  (0x2000 ≤ n && n ≤ 0x200A) || (n = 0x2028) || (n = 0x2029) ||
  (n = 0x202F) || (n = 0x205F) || (n = 0x3000)

/-- The fixed character class removed by `clean_text`'s second regex:
`[ ] { } ( ) < > " ' : ; # @ - _` (given here by code point). -/
def isPunct (c : Char) : Bool :=
  let n := c.toNat
  (n = 0x5B) || (n = 0x5D) || (n = 0x7B) || (n = 0x7D) ||
  (n = 0x28) || (n = 0x29) || (n = 0x3C) || (n = 0x3E) ||
  (n = 0x22) || (n = 0x27) || (n = 0x3A) || (n = 0x3B) ||
  (n = 0x23) || (n = 0x40) || (n = 0x2D) || (n = 0x5F)

/-- `text.replace("&", " and ")` (0x26 is the ampersand). -/
def replaceAmp : List Char → List Char
  | [] => []
  | c :: cs =>
    if c.toNat = 0x26 then [' ', 'a', 'n', 'd', ' '] ++ replaceAmp cs
    else c :: replaceAmp cs

/-- `re.sub(r"[\[\]\{\}\(\)\<\>\"\'\:\;\#\@\-\_]", " ", text)`. -/
def stripPunct (l : List Char) : List Char :=
  l.map fun c => if isPunct c then ' ' else c

/-- Worker for `re.sub(r"\s+", " ", text)`: the flag records whether we are
inside a whitespace run already replaced by a single space. -/
def collapseGo : Bool → List Char → List Char
  | _, [] => []
  | inWs, c :: cs =>
    if isPySpace c then
      if inWs then collapseGo true cs else ' ' :: collapseGo true cs
    else c :: collapseGo false cs

/-- `re.sub(r"\s+", " ", text)`: each maximal whitespace run becomes one space. -/
def collapseWs (l : List Char) : List Char := collapseGo false l

/-- Left part of `str.strip()`. -/
def lstrip (l : List Char) : List Char := l.dropWhile isPySpace

/-- Right part of `str.strip()`. -/
def rstrip (l : List Char) : List Char := (l.reverse.dropWhile isPySpace).reverse

/-- `str.strip()`. -/
def stripWs (l : List Char) : List Char := rstrip (lstrip l)

/-- `clean_text` from `guard_server.py`: replace each `&` with " and ",
replace the fixed punctuation class with spaces, collapse whitespace runs
to single spaces, trim the ends. -/
def clean_text (l : List Char) : List Char :=
  stripWs (collapseWs (stripPunct (replaceAmp l)))

/-- `clean_text` on `String`. -/
def clean_textS (s : String) : String := (clean_text s.toList).asString

/-- An embedding vector (the external model's output). -/
abbrev Vec := List ℚ

/-- `MAX_ATTEMPTS = 3`. -/
def MAX_ATTEMPTS : ℕ := 3

/-- `COOLDOWN_MINUTES = 10`. -/
def COOLDOWN_MINUTES : ℕ := 10

/-- `calculate_similarity`: 0.0 on an empty stored-embedding list, else the
maximum cosine similarity between the embedding of the cleaned input and
the stored vectors. `embed` and `cos` are the opaque model primitives. -/
def calculate_similarity (embed : String → Vec) (cos : Vec → Vec → ℚ)
    (input_phrase : String) (stored_embeddings : List Vec) : ℚ :=
  match stored_embeddings with
  | [] => 0
  | v :: rest =>
    let cleaned_input := clean_textS input_phrase
    let input_emb := embed cleaned_input
    (rest.map fun w => cos input_emb w).foldl max (cos input_emb v)

/-- A row of the `users` table. -/
structure Account where
  password_hash : String
  locked_until : ℚ
  attempts : ℕ
  deriving Repr, DecidableEq

/-- A row of the `auth_context` table (`saved_phrase` is how `verify` reads
the column holding the earlier ambiguous input; `timestamp` its creation
time). -/
structure Ctx where
  saved_phrase : String
  timestamp : ℚ
  deriving Repr, DecidableEq

/-- The persistent store: `users`, `phrases` (JSON-encoded embedding text,
in insertion order) and `auth_context`, all keyed by `user_id`. -/
structure DB where
  users : String → Option Account
  phrases : String → List String
  auth_context : String → Option Ctx

/-- `update_attempts`: `UPDATE users SET attempts = ?, locked_until = ?`. -/
def update_attempts (db : DB) (user_id : String) (attempts : ℕ)
    (locked_until : ℚ) : DB :=
  { db with users := fun u =>
      if u = user_id then
        (db.users u).map fun a => { a with attempts := attempts, locked_until := locked_until }
      else db.users u }

/-- `DELETE FROM auth_context WHERE user_id = ?`. -/
def deleteContext (db : DB) (user_id : String) : DB :=
  { db with auth_context := fun u => if u = user_id then none else db.auth_context u }

/-- `INSERT OR REPLACE INTO auth_context`. -/
def setContext (db : DB) (user_id : String) (ctx : Ctx) : DB :=
  { db with auth_context := fun u => if u = user_id then some ctx else db.auth_context u }

/-- The decode loop of `verify`: `json.loads` each stored phrase row,
appending successes and skipping rows that fail to decode
(`except json.JSONDecodeError: logger.error(...)`). -/
def collectEmbeddings (decodeEmb : String → Option Vec) : List String → List Vec
  | [] => []
  | s :: rest =>
    match decodeEmb s with
    | some e => e :: collectEmbeddings decodeEmb rest
    | none => collectEmbeddings decodeEmb rest

/-- Outcome of a `/verify` call, one constructor per HTTP response shape. -/
inductive VerifyResult where
  /-- 404 "User not found." -/
  | notFound : VerifyResult
  /-- 429 "Account is locked. Wait {remaining} seconds." -/
  | lockedWait (remaining : ℤ) : VerifyResult
  /-- `{"status": "authorized", "score": score}` -/
  | authorized (score : ℚ) : VerifyResult
  /-- `{"status": "ambiguous", ..., "score": score}` -/
  | ambiguous (score : ℚ) : VerifyResult
  /-- `{"status": "denied", "attempts_remaining": n}` -/
  | denied (attempts_remaining : ℤ) : VerifyResult
  /-- 429 "Too many failed attempts. Account locked." -/
  | tooManyAttempts : VerifyResult
  deriving Repr, DecidableEq

/-- Is this outcome the `denied` response? -/
def VerifyResult.isDenied : VerifyResult → Bool
  | .denied _ => true
  | _ => false

/-- Is this outcome the `ambiguous` response? -/
def VerifyResult.isAmbiguous : VerifyResult → Bool
  | .ambiguous _ => true
  | _ => false

/-- Is this outcome the `authorized` response? -/
def VerifyResult.isAuthorized : VerifyResult → Bool
  | .authorized _ => true
  | _ => false

/-- Result of the clarification-context phase of `verify` (lines reading
`auth_context`): the effective input text, whether a fresh context was
concatenated in, and the store (mutated only by expired-context cleanup). -/
structure CtxPhase where
  final_input_text : String
  context_used : Bool
  db : DB

/-- The clarification-context phase of `verify`: read the context row; if
fresh (age < 300 s) prepend it (context text, space, new input); if expired
delete it and use the raw input. -/
def contextPhase (current_time : ℚ) (db : DB) (user_id input_text : String) :
    CtxPhase :=
  match db.auth_context user_id with
  | none => { final_input_text := input_text, context_used := false, db := db }
  | some ctx =>
    if current_time - ctx.timestamp < 300 then
      { final_input_text := ctx.saved_phrase ++ " " ++ input_text
        context_used := true, db := db }
    else
      { final_input_text := input_text, context_used := false
        db := deleteContext db user_id }

/-- The similarity score a phrase-type `verify` call computes: the cleaned
effective input (after the context phase) scored against the decodable
stored embeddings. -/
def phraseScore (embed : String → Vec) (cos : Vec → Vec → ℚ)
    (decodeEmb : String → Option Vec) (current_time : ℚ) (db : DB)
    (user_id input_text : String) : ℚ :=
  calculate_similarity embed cos
    (contextPhase current_time db user_id input_text).final_input_text
    (collectEmbeddings decodeEmb (db.phrases user_id))

/-- The `# handle cases` block of `verify`: dispatch on `auth_status`.
`user` is the row fetched at the top of `verify` (its `attempts` feeds the
failure path); `db` is the store after the context phase. -/
def finishVerify (current_time : ℚ) (db : DB) (user_id : String)
    (user : Account) (auth_status : String) (similarity_score : ℚ)
    (final_input_text : String) : VerifyResult × DB :=
  if auth_status = "authorized" then
    (VerifyResult.authorized similarity_score,
     deleteContext (update_attempts db user_id 0 0) user_id)
  else if auth_status = "ambiguous" then
    (VerifyResult.ambiguous similarity_score,
     setContext db user_id { saved_phrase := final_input_text, timestamp := current_time })
  else
    -- weak match: increment, possibly lock (new_attempts, lock_until pair)
    let pair : ℕ × ℚ :=
      if user.attempts + 1 ≥ MAX_ATTEMPTS then
        (0, current_time + (COOLDOWN_MINUTES : ℚ) * 60)
      else (user.attempts + 1, 0)
    let db2 := deleteContext (update_attempts db user_id pair.1 pair.2) user_id
    if pair.2 > 0 then (VerifyResult.tooManyAttempts, db2)
    else (VerifyResult.denied ((MAX_ATTEMPTS : ℤ) - (pair.1 : ℤ)), db2)

/-- The `/verify` endpoint. `checkpw` is bcrypt's verifier, `embed`/`cos`
the similarity primitives, `decodeEmb` the JSON vector decoder,
`current_time` the single `utcnow().timestamp()` of the call. -/
def verify (checkpw : String → String → Bool) (embed : String → Vec)
    (cos : Vec → Vec → ℚ) (decodeEmb : String → Option Vec)
    (current_time : ℚ) (db : DB) (user_id input_text auth_type : String) :
    VerifyResult × DB :=
  match db.users user_id with
  | none => (VerifyResult.notFound, db)
  | some user =>
    if user.locked_until > current_time then
      (VerifyResult.lockedWait (Rat.floor (user.locked_until - current_time)), db)
    else if auth_type = "password" then
      let auth_status :=
        if checkpw input_text user.password_hash then "authorized" else "denied"
      finishVerify current_time db user_id user auth_status 0 input_text
    else if auth_type = "phrase" then
      let cp := contextPhase current_time db user_id input_text
      let similarity_score :=
        calculate_similarity embed cos cp.final_input_text
          (collectEmbeddings decodeEmb (db.phrases user_id))
      let auth_status :=
        if similarity_score ≥ 80 / 100 then "authorized"
        else if 60 / 100 ≤ similarity_score ∧ similarity_score < 80 / 100 then
          (if cp.context_used then "denied" else "ambiguous")
        else "denied"
      finishVerify current_time cp.db user_id user auth_status similarity_score
        cp.final_input_text
    else
      -- unknown auth_type: the defaults (status "denied", score 0.0) flow
      -- straight into the shared failure path
      finishVerify current_time db user_id user "denied" 0 input_text

/-- The `/enroll` endpoint: reject duplicates, store the hash and one
JSON-encoded embedding per cleaned phrase. `none` models the 400 error. -/
def enroll (hashpw : String → String) (embed : String → Vec)
    (encodeEmb : Vec → String) (db : DB) (user_id password : String)
    (phrases : List String) : Option DB :=
  match db.users user_id with
  | some _ => none
  | none =>
    some { db with
      users := fun u =>
        if u = user_id then
          some { password_hash := hashpw password, locked_until := 0, attempts := 0 }
        else db.users u
      phrases := fun u =>
        if u = user_id then
          db.phrases u ++ phrases.map (fun p => encodeEmb (embed (clean_textS p)))
        else db.phrases u }

/-- The `/update_account` endpoint: replace the stored hash wholesale.
`none` models the 404 error. -/
def update_account (hashpw : String → String) (db : DB)
    (user_id new_password : String) : Option DB :=
  match db.users user_id with
  | none => none
  | some user =>
    some { db with users := fun u =>
      if u = user_id then some { user with password_hash := hashpw new_password }
      else db.users u }

/-! ### Helper lemmas about the store operations -/

theorem deleteContext_users (db : DB) (uid : String) :
    (deleteContext db uid).users = db.users := rfl

theorem deleteContext_phrases (db : DB) (uid : String) :
    (deleteContext db uid).phrases = db.phrases := rfl

theorem users_after_update (db : DB) (uid : String) (user : Account) (a : ℕ)
    (lu : ℚ) (hu : db.users uid = some user) :
    (deleteContext (update_attempts db uid a lu) uid).users uid
      = some { user with attempts := a, locked_until := lu } := by
  simp [deleteContext, update_attempts, hu]

theorem contextPhase_users (t : ℚ) (db : DB) (uid inp : String) :
    (contextPhase t db uid inp).db.users = db.users := by
  unfold contextPhase
  cases db.auth_context uid with
  | none => rfl
  | some ctx =>
    by_cases h : t - ctx.timestamp < 300 <;> simp [h, deleteContext]

theorem contextPhase_phrases (t : ℚ) (db : DB) (uid inp : String) :
    (contextPhase t db uid inp).db.phrases = db.phrases := by
  unfold contextPhase
  cases db.auth_context uid with
  | none => rfl
  | some ctx =>
    by_cases h : t - ctx.timestamp < 300 <;> simp [h, deleteContext]

/-- Shape of the shared failure path (`auth_status = "denied"`), assuming a
non-negative wall clock: third failure locks, earlier ones deny. -/
theorem finish_denied (t : ℚ) (db : DB) (uid : String) (user : Account)
    (s : ℚ) (f : String) (hnow : 0 ≤ t) :
    (user.attempts + 1 ≥ MAX_ATTEMPTS →
      finishVerify t db uid user "denied" s f
        = (VerifyResult.tooManyAttempts,
           deleteContext
             (update_attempts db uid 0 (t + (COOLDOWN_MINUTES : ℚ) * 60)) uid)) ∧
    (user.attempts + 1 < MAX_ATTEMPTS →
      finishVerify t db uid user "denied" s f
        = (VerifyResult.denied ((MAX_ATTEMPTS : ℤ) - ((user.attempts : ℤ) + 1)),
           deleteContext (update_attempts db uid (user.attempts + 1) 0) uid)) := by
  constructor
  · intro hge
    have hpos : t + (COOLDOWN_MINUTES : ℚ) * 60 > 0 := by
      have : (COOLDOWN_MINUTES : ℚ) * 60 = 600 := by norm_num [COOLDOWN_MINUTES]
      rw [this]; linarith
    simp [finishVerify, hge, hpos]
  · intro hlt
    have hnge : ¬ user.attempts + 1 ≥ MAX_ATTEMPTS := by omega
    simp [finishVerify, hnge]

/-- The failure path never reports `authorized` or `ambiguous`. -/
theorem finish_denied_shape (t : ℚ) (db : DB) (uid : String) (user : Account)
    (s : ℚ) (f : String) :
    ((finishVerify t db uid user "denied" s f).1.isDenied = true ∨
      (finishVerify t db uid user "denied" s f).1 = VerifyResult.tooManyAttempts) ∧
    (finishVerify t db uid user "denied" s f).1.isAmbiguous = false ∧
    (finishVerify t db uid user "denied" s f).1.isAuthorized = false := by
  unfold finishVerify
  by_cases hge : user.attempts + 1 ≥ MAX_ATTEMPTS <;>
    by_cases hc : (0 : ℚ) < t + (COOLDOWN_MINUTES : ℚ) * 60 <;>
      simp [hge, hc, VerifyResult.isDenied, VerifyResult.isAmbiguous,
        VerifyResult.isAuthorized]

/-! ### Concrete stores used by witnesses and counterexamples -/

/-- A store with one unlocked user two failures in. -/
def dbTwoFails : DB :=
  { users := fun u =>
      if u = "alice" then some { password_hash := "H", locked_until := 0, attempts := 2 }
      else none
    phrases := fun u => if u = "alice" then ["v1"] else []
    auth_context := fun u =>
      if u = "alice" then some { saved_phrase := "blue", timestamp := 900 } else none }

/-- A store with one user whose lock has expired (`locked_until = 500`, a
past instant at `current_time = 1000`) and one recorded failure. -/
def dbExpiredLock : DB :=
  { users := fun u =>
      if u = "bob" then some { password_hash := "H", locked_until := 500, attempts := 1 }
      else none
    phrases := fun _ => []
    auth_context := fun _ => none }

/-- A store with one user locked until 700 (`current_time = 100`). -/
def dbLocked : DB :=
  { users := fun u =>
      if u = "u" then some { password_hash := "H", locked_until := 700, attempts := 1 }
      else none
    phrases := fun _ => []
    auth_context := fun _ => none }

/-- A store with one fresh unlocked user, no failures, no context. -/
def dbFresh : DB :=
  { users := fun u =>
      if u = "carol" then some { password_hash := "H", locked_until := 0, attempts := 0 }
      else none
    phrases := fun u => if u = "carol" then ["v1", "junk"] else []
    auth_context := fun _ => none }

/-! ### C5 -/

/-- C5: while `locked_until > now`, every `verify` call for that user —
with either auth type and arbitrary credential-checking primitives, i.e.
even with fully correct credentials — returns the locked outcome carrying
the remaining cooldown seconds and leaves the entire store (failed
attempts, lock expiry, clarification context) unchanged; the input content
is never checked (the result does not depend on `checkpw`, `embed`, `cos`
or `decodeEmb`). -/
theorem verify_locked_frame (checkpw : String → String → Bool)
    (embed : String → Vec) (cos : Vec → Vec → ℚ)
    (decodeEmb : String → Option Vec) (current_time : ℚ) (db : DB)
    (user_id input_text auth_type : String) (user : Account)
    (hu : db.users user_id = some user)
    (hl : user.locked_until > current_time) :
    verify checkpw embed cos decodeEmb current_time db user_id input_text auth_type
      = (VerifyResult.lockedWait (Rat.floor (user.locked_until - current_time)), db) := by
  unfold verify
  rw [hu]
  simp [hl]

/-- Witness for `verify_locked_frame`: a user locked until 700 probed at
time 100 with a password check that would accept anything. -/
theorem verify_locked_frame_witness :
    dbLocked.users "u" = some { password_hash := "H", locked_until := 700, attempts := 1 } ∧
    (700 : ℚ) > 100 ∧
    verify (fun _ _ => true) (fun _ => []) (fun _ _ => 1) (fun _ => none) 100 dbLocked
        "u" "p" "password"
      = (VerifyResult.lockedWait 600, dbLocked) := by
  refine ⟨rfl, by norm_num, ?_⟩
  have h := verify_locked_frame (fun _ _ => true) (fun _ => []) (fun _ _ => 1)
    (fun _ => none) 100 dbLocked "u" "p" "password"
    { password_hash := "H", locked_until := 700, attempts := 1 } rfl (by norm_num)
  rw [h]
  have h6 : (700 : ℚ) - 100 = 600 := by norm_num
  rw [h6]
  norm_num
  decide

/-! ### C1 -/

/-- C1: a `verify` call on an existing unlocked account that ends in the
shared failure path (password-type mismatch, or phrase-type score below
0.60) increments the stored `attempts` counter; when the incremented
value reaches `MAX_ATTEMPTS` it is reset to 0, `locked_until` becomes
`now + COOLDOWN_MINUTES` minutes and the caller gets the TooManyAttempts
outcome; otherwise `locked_until` is 0 and the caller gets `denied` with
`MAX_ATTEMPTS - new_attempts` attempts remaining. -/
theorem verify_shared_failure_path (checkpw : String → String → Bool)
    (embed : String → Vec) (cos : Vec → Vec → ℚ)
    (decodeEmb : String → Option Vec) (current_time : ℚ) (db : DB)
    (user_id input_text auth_type : String) (user : Account)
    (hu : db.users user_id = some user)
    (hnl : ¬ user.locked_until > current_time)
    (hnow : 0 ≤ current_time)
    (hpath :
      (auth_type = "password" ∧ checkpw input_text user.password_hash = false) ∨
      (auth_type = "phrase" ∧
        phraseScore embed cos decodeEmb current_time db user_id input_text < 60 / 100)) :
    (user.attempts + 1 ≥ MAX_ATTEMPTS →
      (verify checkpw embed cos decodeEmb current_time db user_id input_text auth_type).1
          = VerifyResult.tooManyAttempts ∧
      (verify checkpw embed cos decodeEmb current_time db user_id input_text auth_type).2.users user_id
          = some { user with
                   attempts := 0
                   locked_until := current_time + (COOLDOWN_MINUTES : ℚ) * 60 }) ∧
    (user.attempts + 1 < MAX_ATTEMPTS →
      (verify checkpw embed cos decodeEmb current_time db user_id input_text auth_type).1
          = VerifyResult.denied ((MAX_ATTEMPTS : ℤ) - ((user.attempts : ℤ) + 1)) ∧
      (verify checkpw embed cos decodeEmb current_time db user_id input_text auth_type).2.users user_id
          = some { user with attempts := user.attempts + 1, locked_until := 0 }) := by
  rcases hpath with ⟨hty, hpw⟩ | ⟨hty, hs⟩
  · subst hty
    have hver : verify checkpw embed cos decodeEmb current_time db user_id input_text "password"
        = finishVerify current_time db user_id user "denied" 0 input_text := by
      unfold verify
      rw [hu]
      simp [hnl, hpw]
    rw [hver]
    obtain ⟨h1, h2⟩ := finish_denied current_time db user_id user 0 input_text hnow
    constructor
    · intro hge
      rw [h1 hge]
      exact ⟨rfl, users_after_update db user_id user 0 _ hu⟩
    · intro hlt
      rw [h2 hlt]
      exact ⟨rfl, users_after_update db user_id user _ 0 hu⟩
  · subst hty
    have hs' : calculate_similarity embed cos
        (contextPhase current_time db user_id input_text).final_input_text
        (collectEmbeddings decodeEmb (db.phrases user_id)) < 60 / 100 := hs
    have h80 : ¬ calculate_similarity embed cos
        (contextPhase current_time db user_id input_text).final_input_text
        (collectEmbeddings decodeEmb (db.phrases user_id)) ≥ 80 / 100 := by
      intro h; linarith
    have h60 : ¬ (60 / 100 ≤ calculate_similarity embed cos
        (contextPhase current_time db user_id input_text).final_input_text
        (collectEmbeddings decodeEmb (db.phrases user_id)) ∧
        calculate_similarity embed cos
          (contextPhase current_time db user_id input_text).final_input_text
          (collectEmbeddings decodeEmb (db.phrases user_id)) < 80 / 100) := by
      rintro ⟨h, -⟩; linarith
    have hver : verify checkpw embed cos decodeEmb current_time db user_id input_text "phrase"
        = finishVerify current_time (contextPhase current_time db user_id input_text).db
            user_id user "denied"
            (calculate_similarity embed cos
              (contextPhase current_time db user_id input_text).final_input_text
              (collectEmbeddings decodeEmb (db.phrases user_id)))
            (contextPhase current_time db user_id input_text).final_input_text := by
      unfold verify
      rw [hu]
      simp [hnl, h80, h60]
    rw [hver]
    have hu' : (contextPhase current_time db user_id input_text).db.users user_id = some user := by
      rw [contextPhase_users]; exact hu
    obtain ⟨h1, h2⟩ := finish_denied current_time
      (contextPhase current_time db user_id input_text).db user_id user
      (calculate_similarity embed cos
        (contextPhase current_time db user_id input_text).final_input_text
        (collectEmbeddings decodeEmb (db.phrases user_id)))
      (contextPhase current_time db user_id input_text).final_input_text hnow
    constructor
    · intro hge
      rw [h1 hge]
      exact ⟨rfl, users_after_update _ user_id user 0 _ hu'⟩
    · intro hlt
      rw [h2 hlt]
      exact ⟨rfl, users_after_update _ user_id user _ 0 hu'⟩

/-- Witness for `verify_shared_failure_path`: a wrong password as the third
consecutive failure locks the account until `now + 600`. -/
theorem verify_shared_failure_path_witness :
    dbTwoFails.users "alice" = some { password_hash := "H", locked_until := 0, attempts := 2 } ∧
    (verify (fun _ _ => false) (fun _ => []) (fun _ _ => 0) (fun _ => none) 1000 dbTwoFails
        "alice" "x" "password").1 = VerifyResult.tooManyAttempts ∧
    (verify (fun _ _ => false) (fun _ => []) (fun _ _ => 0) (fun _ => none) 1000 dbTwoFails
        "alice" "x" "password").2.users "alice"
      = some { password_hash := "H", locked_until := 1600, attempts := 0 } := by
  have h := (verify_shared_failure_path (fun _ _ => false) (fun _ => []) (fun _ _ => 0)
    (fun _ => none) 1000 dbTwoFails "alice" "x" "password"
    { password_hash := "H", locked_until := 0, attempts := 2 } rfl (by norm_num)
    (by norm_num) (Or.inl ⟨rfl, rfl⟩)).1 (by norm_num [MAX_ATTEMPTS])
  refine ⟨rfl, h.1, ?_⟩
  rw [h.2]
  norm_num [COOLDOWN_MINUTES]

/-! ### C3 -/

/-- C3: a phrase-type verification on an existing unlocked account whose
similarity score is at least 0.80 (closed boundary) ends `authorized`
carrying the score, and any stored clarification context for that user is
deleted. -/
theorem verify_phrase_authorizes (checkpw : String → String → Bool)
    (embed : String → Vec) (cos : Vec → Vec → ℚ)
    (decodeEmb : String → Option Vec) (current_time : ℚ) (db : DB)
    (user_id input_text : String) (user : Account)
    (hu : db.users user_id = some user)
    (hnl : ¬ user.locked_until > current_time)
    (hs : phraseScore embed cos decodeEmb current_time db user_id input_text ≥ 80 / 100) :
    (verify checkpw embed cos decodeEmb current_time db user_id input_text "phrase").1
      = VerifyResult.authorized
          (phraseScore embed cos decodeEmb current_time db user_id input_text) ∧
    (verify checkpw embed cos decodeEmb current_time db user_id input_text "phrase").2.auth_context
        user_id = none := by
  have hs' : calculate_similarity embed cos
      (contextPhase current_time db user_id input_text).final_input_text
      (collectEmbeddings decodeEmb (db.phrases user_id)) ≥ 80 / 100 := hs
  have hver : verify checkpw embed cos decodeEmb current_time db user_id input_text "phrase"
      = finishVerify current_time (contextPhase current_time db user_id input_text).db
          user_id user "authorized"
          (calculate_similarity embed cos
            (contextPhase current_time db user_id input_text).final_input_text
            (collectEmbeddings decodeEmb (db.phrases user_id)))
          (contextPhase current_time db user_id input_text).final_input_text := by
    unfold verify
    rw [hu]
    simp [hnl, hs']
  rw [hver]
  unfold finishVerify
  simp [deleteContext]
  rfl

/-- Witness for `verify_phrase_authorizes`: a cosine similarity of 0.9
against the one decodable stored vector authorizes and clears context. -/
theorem verify_phrase_authorizes_witness :
    phraseScore (fun _ => [1]) (fun _ _ => 9 / 10)
        (fun s => if s = "v1" then some [1] else none) 1000 dbFresh "carol" "blue bicycle"
      ≥ 80 / 100 ∧
    (verify (fun _ _ => false) (fun _ => [1]) (fun _ _ => 9 / 10)
        (fun s => if s = "v1" then some [1] else none) 1000 dbFresh "carol" "blue bicycle"
        "phrase").1 = VerifyResult.authorized (9 / 10) ∧
    (verify (fun _ _ => false) (fun _ => [1]) (fun _ _ => 9 / 10)
        (fun s => if s = "v1" then some [1] else none) 1000 dbFresh "carol" "blue bicycle"
        "phrase").2.auth_context "carol" = none := by
  have hsc : phraseScore (fun _ => [1]) (fun _ _ => 9 / 10)
      (fun s => if s = "v1" then some [1] else none) 1000 dbFresh "carol" "blue bicycle"
      = 9 / 10 := by
    simp [phraseScore, contextPhase, dbFresh, collectEmbeddings, calculate_similarity]
  have h := verify_phrase_authorizes (fun _ _ => false) (fun _ => [1]) (fun _ _ => 9 / 10)
    (fun s => if s = "v1" then some [1] else none) 1000 dbFresh "carol" "blue bicycle"
    { password_hash := "H", locked_until := 0, attempts := 0 } rfl (by norm_num)
    (by rw [hsc]; norm_num)
  exact ⟨by rw [hsc]; norm_num, by rw [h.1, hsc], h.2⟩

/-! ### C10 -/

/-- C10: a `verify` call whose `auth_type` is neither "password" nor
"phrase" behaves exactly as a wrong-password attempt — the whole call
equals a password-type call whose credential check rejects — and in
particular never returns `authorized` or `ambiguous`. -/
theorem verify_unknown_auth_type (checkpw : String → String → Bool)
    (embed : String → Vec) (cos : Vec → Vec → ℚ)
    (decodeEmb : String → Option Vec) (current_time : ℚ) (db : DB)
    (user_id input_text auth_type : String)
    (h1 : auth_type ≠ "password") (h2 : auth_type ≠ "phrase") :
    verify checkpw embed cos decodeEmb current_time db user_id input_text auth_type
      = verify (fun _ _ => false) embed cos decodeEmb current_time db user_id input_text
          "password" ∧
    (verify checkpw embed cos decodeEmb current_time db user_id input_text auth_type).1.isAuthorized
        = false ∧
    (verify checkpw embed cos decodeEmb current_time db user_id input_text auth_type).1.isAmbiguous
        = false := by
  have heq : verify checkpw embed cos decodeEmb current_time db user_id input_text auth_type
      = verify (fun _ _ => false) embed cos decodeEmb current_time db user_id input_text
          "password" := by
    unfold verify
    cases hdb : db.users user_id with
    | none => rfl
    | some user =>
      by_cases hl : user.locked_until > current_time
      · simp [hl]
      · simp [hl, h1, h2]
  refine ⟨heq, ?_⟩
  rw [heq]
  unfold verify
  cases hdb : db.users user_id with
  | none => simp [VerifyResult.isAuthorized, VerifyResult.isAmbiguous]
  | some user =>
    by_cases hl : user.locked_until > current_time
    · simp [hl, VerifyResult.isAuthorized, VerifyResult.isAmbiguous]
    · have hshape := finish_denied_shape current_time db user_id user 0 input_text
      simp [hl]
      exact ⟨hshape.2.2, hshape.2.1⟩

/-- Witness for `verify_unknown_auth_type` at `auth_type = "token"`. -/
theorem verify_unknown_auth_type_witness :
    verify (fun _ _ => true) (fun _ => []) (fun _ _ => 1) (fun _ => none) 1000 dbFresh
        "carol" "x" "token"
      = verify (fun _ _ => false) (fun _ => []) (fun _ _ => 1) (fun _ => none) 1000 dbFresh
          "carol" "x" "password" ∧
    (verify (fun _ _ => true) (fun _ => []) (fun _ _ => 1) (fun _ => none) 1000 dbFresh
        "carol" "x" "token").1.isAuthorized = false ∧
    (verify (fun _ _ => true) (fun _ => []) (fun _ _ => 1) (fun _ => none) 1000 dbFresh
        "carol" "x" "token").1.isAmbiguous = false :=
  verify_unknown_auth_type (fun _ _ => true) (fun _ => []) (fun _ _ => 1) (fun _ => none)
    1000 dbFresh "carol" "x" "token" (by decide) (by decide)

/-! ### C4 -/

/-- The data-model invariant: every stored attempts counter is strictly
below `MAX_ATTEMPTS`. -/
def AttemptsInv (db : DB) : Prop :=
  ∀ uid a, db.users uid = some a → a.attempts < MAX_ATTEMPTS

theorem attemptsInv_of_users_eq (db1 db2 : DB) (he : db1.users = db2.users)
    (h : AttemptsInv db2) : AttemptsInv db1 := by
  intro u b hb
  exact h u b (by rw [← he]; exact hb)

theorem attemptsInv_deleteContext (db : DB) (uid : String) (h : AttemptsInv db) :
    AttemptsInv (deleteContext db uid) := h

theorem attemptsInv_setContext (db : DB) (uid : String) (ctx : Ctx) (h : AttemptsInv db) :
    AttemptsInv (setContext db uid ctx) := h

theorem attemptsInv_update (db : DB) (uid : String) (a : ℕ) (lu : ℚ)
    (ha : a < MAX_ATTEMPTS) (h : AttemptsInv db) :
    AttemptsInv (update_attempts db uid a lu) := by
  intro u b hb
  by_cases huid : u = uid
  · subst huid
    simp only [update_attempts, if_pos rfl] at hb
    cases hdb : db.users u with
    | none => rw [hdb] at hb; simp at hb
    | some c =>
      rw [hdb] at hb
      simp only [Option.map_some'] at hb  -- c~with fields
      cases hb
      exact ha
  · simp only [update_attempts, if_neg huid] at hb
    exact h u b hb

/-- Whatever `auth_status` is, the store left by the `# handle cases` block
is one of three shapes, each writing an attempts value below the cap. -/
theorem finishVerify_snd_shape (t : ℚ) (db : DB) (uid : String) (user : Account)
    (st : String) (s : ℚ) (f : String) :
    (finishVerify t db uid user st s f).2 = deleteContext (update_attempts db uid 0 0) uid ∨
    (finishVerify t db uid user st s f).2
        = setContext db uid { saved_phrase := f, timestamp := t } ∨
    (∃ a lu, a < MAX_ATTEMPTS ∧
      (finishVerify t db uid user st s f).2 = deleteContext (update_attempts db uid a lu) uid) := by
  unfold finishVerify
  split
  · exact Or.inl rfl
  · split
    · exact Or.inr (Or.inl rfl)
    · right; right
      by_cases hge : user.attempts + 1 ≥ MAX_ATTEMPTS
      · refine ⟨0, t + (COOLDOWN_MINUTES : ℚ) * 60, by norm_num [MAX_ATTEMPTS], ?_⟩
        simp only [hge, if_pos]
        split <;> rfl
      · refine ⟨user.attempts + 1, 0, ?_, ?_⟩
        · simp only [MAX_ATTEMPTS, ge_iff_le] at hge ⊢; omega
        · simp only [hge, if_neg, if_false]
          split <;> rfl

theorem attemptsInv_finishVerify (t : ℚ) (db : DB) (uid : String) (user : Account)
    (st : String) (s : ℚ) (f : String) (h : AttemptsInv db) :
    AttemptsInv (finishVerify t db uid user st s f).2 := by
  rcases finishVerify_snd_shape t db uid user st s f with h1 | h1 | ⟨a, lu, ha, h1⟩ <;>
    rw [h1]
  · exact attemptsInv_deleteContext _ _
      (attemptsInv_update _ _ _ _ (by norm_num [MAX_ATTEMPTS]) h)
  · exact attemptsInv_setContext _ _ _ h
  · exact attemptsInv_deleteContext _ _ (attemptsInv_update _ _ _ _ ha h)

/-- C4: every reachable stored `attempts` value lies in `[0, MAX_ATTEMPTS)`
(the counter is a natural number, so the lower bound is by type): if the
invariant holds before, it holds after any `verify` call (whatever its
outcome), after any successful `enroll`, and after any successful
`update_account`. -/
theorem attempts_invariant (checkpw : String → String → Bool)
    (embed : String → Vec) (cos : Vec → Vec → ℚ)
    (decodeEmb : String → Option Vec) (hashpw : String → String)
    (encodeEmb : Vec → String) (t : ℚ) (db : DB)
    (user_id input_text auth_type password new_password : String)
    (phrases : List String) (hinv : AttemptsInv db) :
    AttemptsInv (verify checkpw embed cos decodeEmb t db user_id input_text auth_type).2 ∧
    (∀ db', enroll hashpw embed encodeEmb db user_id password phrases = some db'
      → AttemptsInv db') ∧
    (∀ db', update_account hashpw db user_id new_password = some db'
      → AttemptsInv db') := by
  refine ⟨?_, ?_, ?_⟩
  · unfold verify
    cases hdb : db.users user_id with
    | none => exact hinv
    | some user =>
      by_cases hl : user.locked_until > t
      · simp only [hl, if_pos]
        exact hinv
      · by_cases hp : auth_type = "password"
        · simp only [hl, hp, if_neg, if_false, if_pos, if_true]
          exact attemptsInv_finishVerify _ _ _ _ _ _ _ hinv
        · by_cases hq : auth_type = "phrase"
          · simp only [hl, hp, hq, if_neg, if_false, if_pos, if_true]
            exact attemptsInv_finishVerify _ _ _ _ _ _ _
              (attemptsInv_of_users_eq _ _ (contextPhase_users t db user_id input_text) hinv)
          · simp only [hl, hp, hq, if_neg, if_false]
            exact attemptsInv_finishVerify _ _ _ _ _ _ _ hinv
  · intro db' hdb'
    unfold enroll at hdb'
    cases hdb : db.users user_id with
    | some u => rw [hdb] at hdb'; simp at hdb'
    | none =>
      rw [hdb] at hdb'
      simp only [Option.some.injEq] at hdb'
      subst hdb'
      intro u b hb
      by_cases huid : u = user_id
      · subst huid
        simp only [if_pos rfl] at hb
        cases hb
        norm_num [MAX_ATTEMPTS]
      · simp only [if_neg huid] at hb
        exact hinv u b hb
  · intro db' hdb'
    unfold update_account at hdb'
    cases hdb : db.users user_id with
    | none => rw [hdb] at hdb'; simp at hdb'
    | some u =>
      rw [hdb] at hdb'
      simp only [Option.some.injEq] at hdb'
      subst hdb'
      intro v b hb
      by_cases huid : v = user_id
      · subst huid
        simp only [if_pos rfl] at hb
        cases hb
        exact hinv _ u hdb
      · simp only [if_neg huid] at hb
        exact hinv v b hb

/-- Witness for `attempts_invariant` at the concrete fresh store. -/
theorem attempts_invariant_witness :
    AttemptsInv dbFresh ∧
    AttemptsInv (verify (fun _ _ => false) (fun _ => []) (fun _ _ => 0) (fun _ => none)
      1000 dbFresh "carol" "x" "password").2 := by
  have hinv : AttemptsInv dbFresh := by
    intro uid a h
    by_cases hc : uid = "carol"
    · subst hc
      have ha : a = { password_hash := "H", locked_until := 0, attempts := 0 } := by
        simpa [dbFresh] using h.symm
      rw [ha]
      norm_num [MAX_ATTEMPTS]
    · simp [dbFresh, hc] at h
  exact ⟨hinv,
    (attempts_invariant (fun _ _ => false) (fun _ => []) (fun _ _ => 0) (fun _ => none)
      (fun s => s) (fun _ => "") 1000 dbFresh "carol" "x" "password" "p" "n" [] hinv).1⟩

/-! ### C6 -/

/-- Only `auth_status = "authorized"` can produce the authorized result. -/
theorem finishVerify_fst_authorized (t : ℚ) (db : DB) (uid : String)
    (user : Account) (st : String) (s : ℚ) (f : String) (s' : ℚ)
    (h : (finishVerify t db uid user st s f).1 = VerifyResult.authorized s') :
    st = "authorized" := by
  unfold finishVerify at h
  split at h
  · assumption
  · exfalso
    split at h
    · simp at h
    · by_cases hge : user.attempts + 1 ≥ MAX_ATTEMPTS
      · by_cases hc : t + (COOLDOWN_MINUTES : ℚ) * 60 > 0 <;> simp [hge, hc] at h
      · simp [hge] at h

/-- A `verify` call that ends authorized leaves a store obtained by writing
attempts 0 and lock 0 into a store with the same `users` table. -/
theorem verify_authorized_snd (checkpw : String → String → Bool)
    (embed : String → Vec) (cos : Vec → Vec → ℚ)
    (decodeEmb : String → Option Vec) (t : ℚ) (db : DB)
    (uid inp atype : String) (s : ℚ)
    (hres : (verify checkpw embed cos decodeEmb t db uid inp atype).1
      = VerifyResult.authorized s) :
    ∃ db1 : DB, db1.users = db.users ∧
      (verify checkpw embed cos decodeEmb t db uid inp atype).2
        = deleteContext (update_attempts db1 uid 0 0) uid := by
  cases hdb : db.users uid with
  | none =>
    have hver : verify checkpw embed cos decodeEmb t db uid inp atype
        = (VerifyResult.notFound, db) := by
      unfold verify; rw [hdb]
    rw [hver] at hres; simp at hres
  | some user =>
    by_cases hl : user.locked_until > t
    · have hver : verify checkpw embed cos decodeEmb t db uid inp atype
          = (VerifyResult.lockedWait (Rat.floor (user.locked_until - t)), db) := by
        unfold verify; rw [hdb]; simp [hl]
      rw [hver] at hres; simp at hres
    · by_cases hp : atype = "password"
      · subst hp
        have hver : verify checkpw embed cos decodeEmb t db uid inp "password"
            = finishVerify t db uid user
                (if checkpw inp user.password_hash then "authorized" else "denied")
                0 inp := by
          unfold verify; rw [hdb]; simp [hl]
        rw [hver] at hres ⊢
        have hst := finishVerify_fst_authorized _ _ _ _ _ _ _ _ hres
        rw [hst]
        refine ⟨db, rfl, ?_⟩
        unfold finishVerify
        simp
      · by_cases hq : atype = "phrase"
        · subst hq
          have hver : verify checkpw embed cos decodeEmb t db uid inp "phrase"
              = finishVerify t (contextPhase t db uid inp).db uid user
                  (if calculate_similarity embed cos
                        (contextPhase t db uid inp).final_input_text
                        (collectEmbeddings decodeEmb (db.phrases uid)) ≥ 80 / 100 then
                     "authorized"
                   else if 60 / 100 ≤ calculate_similarity embed cos
                        (contextPhase t db uid inp).final_input_text
                        (collectEmbeddings decodeEmb (db.phrases uid)) ∧
                        calculate_similarity embed cos
                          (contextPhase t db uid inp).final_input_text
                          (collectEmbeddings decodeEmb (db.phrases uid)) < 80 / 100 then
                     (if (contextPhase t db uid inp).context_used then "denied"
                      else "ambiguous")
                   else "denied")
                  (calculate_similarity embed cos
                    (contextPhase t db uid inp).final_input_text
                    (collectEmbeddings decodeEmb (db.phrases uid)))
                  (contextPhase t db uid inp).final_input_text := by
            unfold verify; rw [hdb]; simp [hl]
          rw [hver] at hres ⊢
          have hst := finishVerify_fst_authorized _ _ _ _ _ _ _ _ hres
          rw [hst]
          refine ⟨(contextPhase t db uid inp).db, contextPhase_users t db uid inp, ?_⟩
          unfold finishVerify
          simp
        · have hver : verify checkpw embed cos decodeEmb t db uid inp atype
              = finishVerify t db uid user "denied" 0 inp := by
            unfold verify; rw [hdb]; simp [hl, hp, hq]
          rw [hver] at hres
          have hst := finishVerify_fst_authorized _ _ _ _ _ _ _ _ hres
          simp at hst

/-- Counterexample to C6 as stated: after an expired lock
(`locked_until = 500`, now 1000), a correct-password verification ends
authorized but `locked_until` is overwritten with 0, not left at its prior
value 500. -/
theorem verify_authorized_lock_untouched_cex :
    (dbExpiredLock.users "bob").map Account.locked_until = some 500 ∧
    (verify (fun _ _ => true) (fun _ => []) (fun _ _ => 0) (fun _ => none) 1000
        dbExpiredLock "bob" "pw" "password").1 = VerifyResult.authorized 0 ∧
    ((verify (fun _ _ => true) (fun _ => []) (fun _ _ => 0) (fun _ => none) 1000
        dbExpiredLock "bob" "pw" "password").2.users "bob").map Account.locked_until
      = some 0 ∧
    (500 : ℚ) ≠ 0 := by
  refine ⟨by simp [dbExpiredLock], ?_, ?_, by norm_num⟩ <;>
    norm_num [verify, dbExpiredLock, finishVerify, deleteContext, update_attempts]

/-- C6 (amended): every `verify` call that ends authorized resets the
account's `attempts` to 0 and sets `locked_until` to 0 — the code writes 0
unconditionally rather than leaving the field untouched, and the two
coincide exactly when the prior value was already 0. -/
theorem verify_authorized_resets (checkpw : String → String → Bool)
    (embed : String → Vec) (cos : Vec → Vec → ℚ)
    (decodeEmb : String → Option Vec) (t : ℚ) (db : DB)
    (uid inp atype : String) (user : Account) (s : ℚ)
    (hu : db.users uid = some user)
    (hres : (verify checkpw embed cos decodeEmb t db uid inp atype).1
      = VerifyResult.authorized s) :
    (verify checkpw embed cos decodeEmb t db uid inp atype).2.users uid
      = some { user with attempts := 0, locked_until := 0 } := by
  obtain ⟨db1, he, h2⟩ :=
    verify_authorized_snd checkpw embed cos decodeEmb t db uid inp atype s hres
  rw [h2]
  exact users_after_update db1 uid user 0 0 (by rw [he]; exact hu)

/-- Witness for `verify_authorized_resets` at the expired-lock store. -/
theorem verify_authorized_resets_witness :
    (verify (fun _ _ => true) (fun _ => []) (fun _ _ => 0) (fun _ => none) 1000
        dbExpiredLock "bob" "pw" "password").2.users "bob"
      = some { password_hash := "H", locked_until := 0, attempts := 0 } := by
  have h := verify_authorized_resets (fun _ _ => true) (fun _ => []) (fun _ _ => 0)
    (fun _ => none) 1000 dbExpiredLock "bob" "pw" "password"
    { password_hash := "H", locked_until := 500, attempts := 1 } 0 rfl
    (by norm_num [verify, dbExpiredLock, finishVerify])
  exact h

/-! ### C2 -/

/-- At `dbTwoFails` the context-combined second submission scores 0.7 with
the constant-0.7 cosine. -/
theorem phraseScore_dbTwoFails :
    phraseScore (fun _ => [1]) (fun _ _ => 7 / 10) (fun _ => some [1]) 1000 dbTwoFails
      "alice" "bike" = 7 / 10 := by
  norm_num [phraseScore, contextPhase, dbTwoFails, collectEmbeddings,
    calculate_similarity]

/-- Counterexample to C2 as stated: with two failures already on record, a
second (context-combined) phrase submission scoring 0.7 — inside
`[0.60, 0.80)`, within the 300 s window — returns the TooManyAttempts
lockout outcome, not `denied`. -/
theorem verify_second_ambiguous_cex :
    dbTwoFails.auth_context "alice" = some { saved_phrase := "blue", timestamp := 900 } ∧
    (1000 : ℚ) - 900 < 300 ∧
    60 / 100 ≤ phraseScore (fun _ => [1]) (fun _ _ => 7 / 10) (fun _ => some [1]) 1000
      dbTwoFails "alice" "bike" ∧
    phraseScore (fun _ => [1]) (fun _ _ => 7 / 10) (fun _ => some [1]) 1000 dbTwoFails
      "alice" "bike" < 80 / 100 ∧
    (verify (fun _ _ => false) (fun _ => [1]) (fun _ _ => 7 / 10) (fun _ => some [1])
        1000 dbTwoFails "alice" "bike" "phrase").1 = VerifyResult.tooManyAttempts ∧
    (verify (fun _ _ => false) (fun _ => [1]) (fun _ _ => 7 / 10) (fun _ => some [1])
        1000 dbTwoFails "alice" "bike" "phrase").1.isDenied = false := by
  have hcp : contextPhase 1000 dbTwoFails "alice" "bike"
      = { final_input_text := "blue" ++ " " ++ "bike"
          context_used := true, db := dbTwoFails } := by
    unfold contextPhase
    rw [show dbTwoFails.auth_context "alice"
        = some { saved_phrase := "blue", timestamp := 900 } from rfl]
    norm_num
  have h80 : ¬ (80 / 100 : ℚ) ≤ calculate_similarity (fun _ => [1]) (fun _ _ => (7 : ℚ) / 10)
      "blue bike"
      (collectEmbeddings (fun _ => some [1]) (dbTwoFails.phrases "alice")) := by
    norm_num [dbTwoFails, collectEmbeddings, calculate_similarity]
  have hnl : ¬ ((0 : ℚ) > 1000) := by norm_num
  have hver : verify (fun _ _ => false) (fun _ => [1]) (fun _ _ => 7 / 10)
      (fun _ => some [1]) 1000 dbTwoFails "alice" "bike" "phrase"
      = finishVerify 1000 dbTwoFails "alice"
          { password_hash := "H", locked_until := 0, attempts := 2 } "denied"
          (calculate_similarity (fun _ => [1]) (fun _ _ => 7 / 10) "blue bike"
            (collectEmbeddings (fun _ => some [1]) (dbTwoFails.phrases "alice")))
          "blue bike" := by
    unfold verify
    rw [show dbTwoFails.users "alice"
        = some { password_hash := "H", locked_until := 0, attempts := 2 } from rfl]
    simp [hnl, hcp, h80]
  have hfin := (finish_denied 1000 dbTwoFails "alice"
    { password_hash := "H", locked_until := 0, attempts := 2 }
    (calculate_similarity (fun _ => [1]) (fun _ _ => 7 / 10) "blue bike"
      (collectEmbeddings (fun _ => some [1]) (dbTwoFails.phrases "alice")))
    "blue bike" (by norm_num)).1 (by norm_num [MAX_ATTEMPTS])
  have hres : (verify (fun _ _ => false) (fun _ => [1]) (fun _ _ => 7 / 10)
      (fun _ => some [1]) 1000 dbTwoFails "alice" "bike" "phrase").1
      = VerifyResult.tooManyAttempts := by
    rw [hver, hfin]
  refine ⟨rfl, by norm_num, by rw [phraseScore_dbTwoFails]; norm_num,
    by rw [phraseScore_dbTwoFails]; norm_num, hres, by rw [hres]; rfl⟩

/-- C2 (amended): if a fresh (< 300 s old) clarification context is stored
for a user, a second phrase submission whose combined score lands in
`[0.60, 0.80)` or below 0.60 returns `denied` — or, when that failure is
the third and trips the lockout threshold, the locked (TooManyAttempts)
outcome — and never a second consecutive `ambiguous`. -/
theorem verify_no_second_ambiguous (checkpw : String → String → Bool)
    (embed : String → Vec) (cos : Vec → Vec → ℚ)
    (decodeEmb : String → Option Vec) (t : ℚ) (db : DB)
    (uid inp : String) (user : Account) (ctx : Ctx)
    (hu : db.users uid = some user)
    (hnl : ¬ user.locked_until > t)
    (hctx : db.auth_context uid = some ctx)
    (hfresh : t - ctx.timestamp < 300)
    (hs : phraseScore embed cos decodeEmb t db uid inp < 80 / 100) :
    ((verify checkpw embed cos decodeEmb t db uid inp "phrase").1.isDenied = true ∨
      (verify checkpw embed cos decodeEmb t db uid inp "phrase").1
        = VerifyResult.tooManyAttempts) ∧
    (verify checkpw embed cos decodeEmb t db uid inp "phrase").1.isAmbiguous = false := by
  have hcp : contextPhase t db uid inp
      = { final_input_text := ctx.saved_phrase ++ " " ++ inp
          context_used := true, db := db } := by
    unfold contextPhase; rw [hctx]; simp [hfresh]
  have hs2 : calculate_similarity embed cos (ctx.saved_phrase ++ " " ++ inp)
      (collectEmbeddings decodeEmb (db.phrases uid)) < 80 / 100 := by
    have h0 : calculate_similarity embed cos
        (contextPhase t db uid inp).final_input_text
        (collectEmbeddings decodeEmb (db.phrases uid)) < 80 / 100 := hs
    rw [hcp] at h0
    exact h0
  have h80 : ¬ calculate_similarity embed cos (ctx.saved_phrase ++ " " ++ inp)
      (collectEmbeddings decodeEmb (db.phrases uid)) ≥ 80 / 100 :=
    fun h => absurd hs2 (not_lt.mpr h)
  have hver : verify checkpw embed cos decodeEmb t db uid inp "phrase"
      = finishVerify t db uid user "denied"
          (calculate_similarity embed cos (ctx.saved_phrase ++ " " ++ inp)
            (collectEmbeddings decodeEmb (db.phrases uid)))
          (ctx.saved_phrase ++ " " ++ inp) := by
    unfold verify
    rw [hu]
    simp [hnl, hcp, h80]
  rw [hver]
  exact ⟨(finish_denied_shape _ _ _ _ _ _).1, (finish_denied_shape _ _ _ _ _ _).2.1⟩

/-- Witness for `verify_no_second_ambiguous` at the two-failures store:
the outcome is the lockout, in particular not ambiguous. -/
theorem verify_no_second_ambiguous_witness :
    ((verify (fun _ _ => false) (fun _ => [1]) (fun _ _ => 7 / 10) (fun _ => some [1])
        1000 dbTwoFails "alice" "bike" "phrase").1.isDenied = true ∨
      (verify (fun _ _ => false) (fun _ => [1]) (fun _ _ => 7 / 10) (fun _ => some [1])
        1000 dbTwoFails "alice" "bike" "phrase").1 = VerifyResult.tooManyAttempts) ∧
    (verify (fun _ _ => false) (fun _ => [1]) (fun _ _ => 7 / 10) (fun _ => some [1])
        1000 dbTwoFails "alice" "bike" "phrase").1.isAmbiguous = false :=
  verify_no_second_ambiguous (fun _ _ => false) (fun _ => [1]) (fun _ _ => 7 / 10)
    (fun _ => some [1]) 1000 dbTwoFails "alice" "bike"
    { password_hash := "H", locked_until := 0, attempts := 2 }
    { saved_phrase := "blue", timestamp := 900 } rfl (by norm_num) rfl (by norm_num)
    (by rw [phraseScore_dbTwoFails]; norm_num)

/-! ### C7 -/

/-- A store whose stored clarification context (created at 100) has
expired by `current_time = 1000`. -/
def dbOldCtx : DB :=
  { users := fun u =>
      if u = "dave" then some { password_hash := "H", locked_until := 0, attempts := 0 }
      else none
    phrases := fun u => if u = "dave" then ["v1"] else []
    auth_context := fun u =>
      if u = "dave" then some { saved_phrase := "old", timestamp := 100 } else none }

/-- C7: in a phrase-type verification the stored clarification context is
consumed as follows: a fresh context (age < 300 s) yields the effective
input "context text, one space, new input" with the store untouched; an
expired context (age ≥ 300 s) is deleted on read, its text is never
concatenated, and the whole phrase verification behaves exactly as on a
store with the context already absent. -/
theorem contextPhase_window (t : ℚ) (db : DB) (uid inp : String) (ctx : Ctx)
    (hctx : db.auth_context uid = some ctx) :
    (t - ctx.timestamp < 300 →
      contextPhase t db uid inp
        = { final_input_text := ctx.saved_phrase ++ " " ++ inp
            context_used := true, db := db }) ∧
    (t - ctx.timestamp ≥ 300 →
      contextPhase t db uid inp
        = { final_input_text := inp, context_used := false
            db := deleteContext db uid } ∧
      ∀ (checkpw : String → String → Bool) (embed : String → Vec)
        (cos : Vec → Vec → ℚ) (decodeEmb : String → Option Vec) (user : Account),
        db.users uid = some user → ¬ user.locked_until > t →
        verify checkpw embed cos decodeEmb t db uid inp "phrase"
          = verify checkpw embed cos decodeEmb t (deleteContext db uid) uid inp
              "phrase") := by
  constructor
  · intro hfresh
    unfold contextPhase
    rw [hctx]
    simp [hfresh]
  · intro hexp
    have hexp' : ¬ t - ctx.timestamp < 300 := not_lt.mpr hexp
    have hcp : contextPhase t db uid inp
        = { final_input_text := inp, context_used := false
            db := deleteContext db uid } := by
      unfold contextPhase
      rw [hctx]
      simp [hexp']
    refine ⟨hcp, ?_⟩
    intro checkpw embed cos decodeEmb user hu hnl
    have hcp' : contextPhase t (deleteContext db uid) uid inp
        = { final_input_text := inp, context_used := false
            db := deleteContext db uid } := by
      unfold contextPhase
      simp [deleteContext]
    have hu' : (deleteContext db uid).users uid = some user := hu
    unfold verify
    rw [hu, hu']
    simp [hnl, hcp, hcp', deleteContext_phrases]

/-- Witness for `contextPhase_window`: the expired context at `dbOldCtx`
is dropped and the call coincides with the context-free call. -/
theorem contextPhase_window_witness :
    contextPhase 1000 dbOldCtx "dave" "bike"
      = { final_input_text := "bike", context_used := false
          db := deleteContext dbOldCtx "dave" } ∧
    verify (fun _ _ => false) (fun _ => [1]) (fun _ _ => 1 / 2) (fun _ => some [1])
        1000 dbOldCtx "dave" "bike" "phrase"
      = verify (fun _ _ => false) (fun _ => [1]) (fun _ _ => 1 / 2) (fun _ => some [1])
          1000 (deleteContext dbOldCtx "dave") "dave" "bike" "phrase" := by
  have h := (contextPhase_window 1000 dbOldCtx "dave" "bike"
    { saved_phrase := "old", timestamp := 100 } rfl).2 (by norm_num)
  exact ⟨h.1, h.2 (fun _ _ => false) (fun _ => [1]) (fun _ _ => 1 / 2)
    (fun _ => some [1]) { password_hash := "H", locked_until := 0, attempts := 0 }
    rfl (by norm_num)⟩

/-! ### C8 -/

/-- If every stored row fails to decode, the usable vector set is empty. -/
theorem collectEmbeddings_all_none (decodeEmb : String → Option Vec) :
    ∀ l : List String, (∀ s ∈ l, decodeEmb s = none) →
      collectEmbeddings decodeEmb l = [] := by
  intro l
  induction l with
  | nil => intro _; rfl
  | cons s rest ih =>
    intro h
    unfold collectEmbeddings
    rw [h s (List.mem_cons_self s rest)]
    exact ih fun x hx => h x (List.mem_cons_of_mem s hx)

/-- The response part of the `# handle cases` block does not depend on the
store it is given. -/
theorem finishVerify_fst_db_irrel (t : ℚ) (db1 db2 : DB) (uid : String)
    (user : Account) (st : String) (s : ℚ) (f : String) :
    (finishVerify t db1 uid user st s f).1 = (finishVerify t db2 uid user st s f).1 := by
  unfold finishVerify
  by_cases h1 : st = "authorized"
  · simp [h1]
  · by_cases h2 : st = "ambiguous"
    · simp [h1, h2]
    · simp only [h1, h2, if_neg, if_false]
      by_cases hge : user.attempts + 1 ≥ MAX_ATTEMPTS <;> simp only [hge, if_pos, if_neg, if_true, if_false] <;>
        split <;> rfl

/-- The effective input and the context-used flag depend only on the
`auth_context` table. -/
theorem contextPhase_fields_eq (t : ℚ) (db1 db2 : DB) (uid inp : String)
    (hctx : db1.auth_context uid = db2.auth_context uid) :
    (contextPhase t db1 uid inp).final_input_text
        = (contextPhase t db2 uid inp).final_input_text ∧
    (contextPhase t db1 uid inp).context_used
        = (contextPhase t db2 uid inp).context_used := by
  unfold contextPhase
  rw [hctx]
  cases db2.auth_context uid with
  | none => exact ⟨rfl, rfl⟩
  | some ctx => by_cases h : t - ctx.timestamp < 300 <;> simp [h]

/-- C8: error handling of the similarity scorer. (1) An empty
stored-vector list scores 0.0 — for every embedder, so the embedder is
never consulted. (2) A stored embedding that fails to decode is skipped
rather than failing the call. (3) If every stored embedding fails to
decode, the phrase score is 0 and the phrase verification outcome is
exactly that of an account with no enrolled phrases. -/
theorem similarity_error_handling (embed : String → Vec) (cos : Vec → Vec → ℚ)
    (decodeEmb : String → Option Vec) :
    (∀ input, calculate_similarity embed cos input [] = 0) ∧
    (∀ s rest, decodeEmb s = none →
      collectEmbeddings decodeEmb (s :: rest) = collectEmbeddings decodeEmb rest) ∧
    (∀ (db : DB) (uid inp : String) (t : ℚ),
      (∀ s ∈ db.phrases uid, decodeEmb s = none) →
      phraseScore embed cos decodeEmb t db uid inp = 0 ∧
      ∀ checkpw : String → String → Bool,
        (verify checkpw embed cos decodeEmb t db uid inp "phrase").1
          = (verify checkpw embed cos decodeEmb t
              { db with phrases := fun u => if u = uid then [] else db.phrases u }
              uid inp "phrase").1) := by
  refine ⟨fun _ => rfl, ?_, ?_⟩
  · intro s rest h
    unfold collectEmbeddings
    rw [h]
    cases rest <;> rfl
  · intro db uid inp t hnone
    have hempty : collectEmbeddings decodeEmb (db.phrases uid) = [] :=
      collectEmbeddings_all_none decodeEmb _ hnone
    have hscore : phraseScore embed cos decodeEmb t db uid inp = 0 := by
      unfold phraseScore
      rw [hempty]
      rfl
    refine ⟨hscore, ?_⟩
    intro checkpw
    set db2 : DB := { db with phrases := fun u => if u = uid then [] else db.phrases u }
      with hdb2
    have hempty2 : collectEmbeddings decodeEmb (db2.phrases uid) = [] := by
      rw [hdb2]
      simp [collectEmbeddings]
    have hctx2 : db.auth_context uid = db2.auth_context uid := rfl
    obtain ⟨hfin, hused⟩ := contextPhase_fields_eq t db db2 uid inp hctx2
    cases hdb : db.users uid with
    | none =>
      have hu2 : db2.users uid = none := hdb
      have e1 : verify checkpw embed cos decodeEmb t db uid inp "phrase"
          = (VerifyResult.notFound, db) := by
        unfold verify; rw [hdb]
      have e2 : verify checkpw embed cos decodeEmb t db2 uid inp "phrase"
          = (VerifyResult.notFound, db2) := by
        unfold verify; rw [hu2]
      rw [e1, e2]
    | some user =>
      have hu2 : db2.users uid = some user := hdb
      by_cases hl : user.locked_until > t
      · have e1 : verify checkpw embed cos decodeEmb t db uid inp "phrase"
            = (VerifyResult.lockedWait (Rat.floor (user.locked_until - t)), db) := by
          unfold verify; rw [hdb]; simp [hl]
        have e2 : verify checkpw embed cos decodeEmb t db2 uid inp "phrase"
            = (VerifyResult.lockedWait (Rat.floor (user.locked_until - t)), db2) := by
          unfold verify; rw [hu2]; simp [hl]
        rw [e1, e2]
      · have e1 : verify checkpw embed cos decodeEmb t db uid inp "phrase"
            = finishVerify t (contextPhase t db uid inp).db uid user
                (if calculate_similarity embed cos
                      (contextPhase t db uid inp).final_input_text [] ≥ 80 / 100 then
                   "authorized"
                 else if 60 / 100 ≤ calculate_similarity embed cos
                      (contextPhase t db uid inp).final_input_text [] ∧
                      calculate_similarity embed cos
                        (contextPhase t db uid inp).final_input_text [] < 80 / 100 then
                   (if (contextPhase t db uid inp).context_used then "denied"
                    else "ambiguous")
                 else "denied")
                (calculate_similarity embed cos
                  (contextPhase t db uid inp).final_input_text [])
                (contextPhase t db uid inp).final_input_text := by
          unfold verify; rw [hdb, hempty]; simp [hl]
        have e2 : verify checkpw embed cos decodeEmb t db2 uid inp "phrase"
            = finishVerify t (contextPhase t db2 uid inp).db uid user
                (if calculate_similarity embed cos
                      (contextPhase t db2 uid inp).final_input_text [] ≥ 80 / 100 then
                   "authorized"
                 else if 60 / 100 ≤ calculate_similarity embed cos
                      (contextPhase t db2 uid inp).final_input_text [] ∧
                      calculate_similarity embed cos
                        (contextPhase t db2 uid inp).final_input_text [] < 80 / 100 then
                   (if (contextPhase t db2 uid inp).context_used then "denied"
                    else "ambiguous")
                 else "denied")
                (calculate_similarity embed cos
                  (contextPhase t db2 uid inp).final_input_text [])
                (contextPhase t db2 uid inp).final_input_text := by
          unfold verify; rw [hu2, hempty2]; simp [hl]
        rw [e1, e2, hfin, hused]
        exact finishVerify_fst_db_irrel t _ _ uid user _ _ _

/-- Witness for `similarity_error_handling`: a decoder that rejects every
stored row makes the fresh store behave as if unenrolled. -/
theorem similarity_error_handling_witness :
    calculate_similarity (fun _ => [1]) (fun _ _ => 1) "x" [] = 0 ∧
    collectEmbeddings (fun _ => (none : Option Vec)) ["v1", "junk"]
      = collectEmbeddings (fun _ => (none : Option Vec)) ["junk"] ∧
    phraseScore (fun _ => [1]) (fun _ _ => 1) (fun _ => none) 1000 dbFresh "carol" "x" = 0 ∧
    (verify (fun _ _ => false) (fun _ => [1]) (fun _ _ => 1) (fun _ => none) 1000
        dbFresh "carol" "x" "phrase").1
      = (verify (fun _ _ => false) (fun _ => [1]) (fun _ _ => 1) (fun _ => none) 1000
          { dbFresh with phrases := fun u => if u = "carol" then [] else dbFresh.phrases u }
          "carol" "x" "phrase").1 := by
  have h := similarity_error_handling (fun _ => [1]) (fun _ _ => 1) (fun _ => none)
  have h3 := h.2.2 dbFresh "carol" "x" 1000 (fun s _ => rfl)
  exact ⟨h.1 "x", h.2.1 "v1" ["junk"] rfl, h3.1, h3.2 (fun _ _ => false)⟩

/-! ### C9: idempotence of the text normalizer

The normal form produced by `clean_text` is characterized by six
properties: no ampersand, no stripped punctuation, every whitespace
character is a plain space, no two adjacent whitespace characters, and no
leading or trailing whitespace. `clean_text` always produces this shape
and fixes every list of this shape. -/

/-- No ampersand (0x26) occurs. -/
def NoAmp (l : List Char) : Prop := ∀ c ∈ l, c.toNat ≠ 0x26

/-- No character of the stripped punctuation class occurs. -/
def NoPunct (l : List Char) : Prop := ∀ c ∈ l, isPunct c = false

/-- Every whitespace character is the plain space. -/
def WsOnlySpace (l : List Char) : Prop := ∀ c ∈ l, isPySpace c = true → c = ' '

/-- No two adjacent whitespace characters. -/
def NoTwoWs (l : List Char) : Prop :=
  l.Chain' fun a b => isPySpace a = false ∨ isPySpace b = false

/-- The first character, if any, is not whitespace. -/
def HeadNotWs : List Char → Prop
  | [] => True
  | c :: _ => isPySpace c = false

/-- The last character, if any, is not whitespace. -/
def LastNotWs (l : List Char) : Prop := HeadNotWs l.reverse

/-! #### Membership through each stage -/

theorem mem_replaceAmp (l : List Char) (c : Char) (hc : c ∈ replaceAmp l) :
    c ∈ [' ', 'a', 'n', 'd'] ∨ (c ∈ l ∧ c.toNat ≠ 0x26) := by
  induction l with
  | nil => simp [replaceAmp] at hc
  | cons x xs ih =>
    unfold replaceAmp at hc
    by_cases hx : x.toNat = 0x26
    · rw [if_pos hx] at hc
      rw [List.mem_append] at hc
      rcases hc with h | h
      · left
        simp only [List.mem_cons, List.not_mem_nil, or_false] at h ⊢
        tauto
      · rcases ih h with h' | ⟨h1, h2⟩
        · exact Or.inl h'
        · exact Or.inr ⟨List.mem_cons_of_mem x h1, h2⟩
    · rw [if_neg hx] at hc
      rcases List.mem_cons.mp hc with h | h
      · subst h
        exact Or.inr ⟨List.mem_cons_self c xs, hx⟩
      · rcases ih h with h' | ⟨h1, h2⟩
        · exact Or.inl h'
        · exact Or.inr ⟨List.mem_cons_of_mem x h1, h2⟩

theorem mem_stripPunct (l : List Char) (c : Char) (hc : c ∈ stripPunct l) :
    c = ' ' ∨ (c ∈ l ∧ isPunct c = false) := by
  unfold stripPunct at hc
  rcases List.mem_map.mp hc with ⟨x, hx, hxc⟩
  by_cases hp : isPunct x
  · rw [if_pos hp] at hxc
    exact Or.inl hxc.symm
  · rw [if_neg hp] at hxc
    subst hxc
    exact Or.inr ⟨hx, by simpa using hp⟩

theorem mem_collapseGo (l : List Char) (c : Char) :
    ∀ flag, c ∈ collapseGo flag l → c = ' ' ∨ (c ∈ l ∧ isPySpace c = false) := by
  induction l with
  | nil => intro flag hc; simp [collapseGo] at hc
  | cons x xs ih =>
    intro flag hc
    unfold collapseGo at hc
    by_cases hx : isPySpace x
    · rw [if_pos hx] at hc
      cases flag with
      | true =>
        simp only [if_true] at hc
        rcases ih true hc with h | ⟨h1, h2⟩
        · exact Or.inl h
        · exact Or.inr ⟨List.mem_cons_of_mem x h1, h2⟩
      | false =>
        simp only [Bool.false_eq_true, if_false] at hc
        rcases List.mem_cons.mp hc with h | h
        · exact Or.inl h
        · rcases ih true h with h' | ⟨h1, h2⟩
          · exact Or.inl h'
          · exact Or.inr ⟨List.mem_cons_of_mem x h1, h2⟩
    · rw [if_neg hx] at hc
      rcases List.mem_cons.mp hc with h | h
      · subst h
        exact Or.inr ⟨List.mem_cons_self c xs, by simpa using hx⟩
      · rcases ih false h with h' | ⟨h1, h2⟩
        · exact Or.inl h'
        · exact Or.inr ⟨List.mem_cons_of_mem x h1, h2⟩

/-! #### Shape of the `collapseGo` output -/

theorem headNotWs_collapseGo (l : List Char) : HeadNotWs (collapseGo true l) := by
  induction l with
  | nil => trivial
  | cons x xs ih =>
    unfold collapseGo
    by_cases hx : isPySpace x
    · simp only [hx, if_true]
      exact ih
    · rw [if_neg hx]
      show isPySpace x = false
      simpa using hx

theorem noTwoWs_cons_of_headNotWs (a : Char) (l : List Char) (hh : HeadNotWs l)
    (hl : NoTwoWs l) : NoTwoWs (a :: l) := by
  cases l with
  | nil => exact List.chain'_singleton a
  | cons b xs =>
    rw [NoTwoWs, List.chain'_cons]
    exact ⟨Or.inr hh, hl⟩

theorem noTwoWs_cons_of_left (a : Char) (l : List Char) (ha : isPySpace a = false)
    (hl : NoTwoWs l) : NoTwoWs (a :: l) := by
  cases l with
  | nil => exact List.chain'_singleton a
  | cons b xs =>
    rw [NoTwoWs, List.chain'_cons]
    exact ⟨Or.inl ha, hl⟩

theorem noTwoWs_collapseGo (l : List Char) : ∀ flag, NoTwoWs (collapseGo flag l) := by
  induction l with
  | nil => intro flag; exact List.chain'_nil
  | cons x xs ih =>
    intro flag
    unfold collapseGo
    by_cases hx : isPySpace x
    · cases flag with
      | true =>
        simp only [hx, if_true]
        exact ih true
      | false =>
        simp only [hx, if_true, Bool.false_eq_true, if_false]
        exact noTwoWs_cons_of_headNotWs ' ' _ (headNotWs_collapseGo xs) (ih true)
    · rw [if_neg hx]
      exact noTwoWs_cons_of_left x _ (by simpa using hx) (ih false)

/-! #### `dropWhile`, prefixes and reversal -/

theorem headNotWs_dropWhile (l : List Char) :
    HeadNotWs (l.dropWhile isPySpace) := by
  induction l with
  | nil => trivial
  | cons x xs ih =>
    rw [List.dropWhile_cons]
    by_cases hx : isPySpace x
    · simp only [hx, if_true]
      exact ih
    · rw [if_neg (by simp [hx])]
      show isPySpace x = false
      simpa using hx

theorem dropWhile_id_of_headNotWs (l : List Char) (h : HeadNotWs l) :
    l.dropWhile isPySpace = l := by
  cases l with
  | nil => rfl
  | cons x xs =>
    rw [List.dropWhile_cons, if_neg]
    simp only [HeadNotWs] at h
    simp [h]

theorem noTwoWs_reverse (l : List Char) (h : NoTwoWs l) : NoTwoWs l.reverse := by
  rw [NoTwoWs, List.chain'_reverse]
  exact List.Chain'.imp (fun a b hab => hab.symm) h

theorem headNotWs_of_isPrefix (l1 l2 : List Char) (h : l1.IsPrefix l2)
    (h2 : HeadNotWs l2) : HeadNotWs l1 := by
  cases l1 with
  | nil => trivial
  | cons x xs =>
    obtain ⟨t, ht⟩ := h
    rw [← ht] at h2
    exact h2

theorem rstrip_isPrefix (l : List Char) : (rstrip l).IsPrefix l := by
  unfold rstrip
  have h := List.dropWhile_suffix (l := l.reverse) isPySpace
  have := List.reverse_prefix.mpr h
  simpa using this

/-! #### Identity on already-clean lists -/

theorem replaceAmp_id (l : List Char) (h : NoAmp l) : replaceAmp l = l := by
  induction l with
  | nil => rfl
  | cons x xs ih =>
    unfold replaceAmp
    rw [if_neg (h x (List.mem_cons_self x xs)),
      ih fun c hc => h c (List.mem_cons_of_mem x hc)]

theorem stripPunct_id (l : List Char) (h : NoPunct l) : stripPunct l = l := by
  induction l with
  | nil => rfl
  | cons x xs ih =>
    unfold stripPunct at ih ⊢
    simp only [List.map_cons]
    rw [if_neg (by simp [h x (List.mem_cons_self x xs)]),
      ih fun c hc => h c (List.mem_cons_of_mem x hc)]

theorem collapseGo_id (l : List Char) (hws : WsOnlySpace l) (h2 : NoTwoWs l) :
    collapseGo false l = l ∧ (HeadNotWs l → collapseGo true l = l) := by
  induction l with
  | nil => exact ⟨rfl, fun _ => rfl⟩
  | cons x xs ih =>
    have hws' : WsOnlySpace xs := fun c hc => hws c (List.mem_cons_of_mem x hc)
    have h2' : NoTwoWs xs := List.Chain'.tail h2
    obtain ⟨ihf, iht⟩ := ih hws' h2'
    by_cases hx : isPySpace x
    · have hxs : x = ' ' := hws x (List.mem_cons_self x xs) hx
      have hhead : HeadNotWs xs := by
        cases xs with
        | nil => trivial
        | cons b ys =>
          rw [NoTwoWs, List.chain'_cons] at h2
          rcases h2.1 with h | h
          · rw [hx] at h; cases h
          · exact h
      constructor
      · unfold collapseGo
        rw [if_pos hx]
        simp only [Bool.false_eq_true, if_false]
        rw [iht hhead, hxs]
      · intro hh
        exact absurd (show isPySpace x = false from hh) (by simp [hx])
    · constructor
      · unfold collapseGo
        rw [if_neg hx, ihf]
      · intro _
        unfold collapseGo
        rw [if_neg hx, ihf]

theorem stripWs_id (l : List Char) (h5 : HeadNotWs l) (h6 : LastNotWs l) :
    stripWs l = l := by
  unfold stripWs lstrip rstrip
  rw [dropWhile_id_of_headNotWs l h5, dropWhile_id_of_headNotWs l.reverse h6,
    List.reverse_reverse]

/-- A list of the clean shape is a fixed point of `clean_text`. -/
theorem clean_text_fixed (l : List Char) (h1 : NoAmp l) (h2 : NoPunct l)
    (h3 : WsOnlySpace l) (h4 : NoTwoWs l) (h5 : HeadNotWs l) (h6 : LastNotWs l) :
    clean_text l = l := by
  unfold clean_text collapseWs
  rw [replaceAmp_id l h1, stripPunct_id l h2, (collapseGo_id l h3 h4).1,
    stripWs_id l h5 h6]

theorem noAmp_replaceAmp (l : List Char) : NoAmp (replaceAmp l) := by
  intro c hc
  rcases mem_replaceAmp l c hc with h | ⟨-, h2⟩
  · simp only [List.mem_cons, List.not_mem_nil, or_false] at h
    rcases h with rfl | rfl | rfl | rfl <;> decide
  · exact h2

/-- `clean_text` always produces the clean shape. -/
theorem clean_text_good (s : List Char) :
    NoAmp (clean_text s) ∧ NoPunct (clean_text s) ∧ WsOnlySpace (clean_text s) ∧
    NoTwoWs (clean_text s) ∧ HeadNotWs (clean_text s) ∧ LastNotWs (clean_text s) := by
  set l1 := stripPunct (replaceAmp s) with hl1
  set l2 := collapseGo false l1 with hl2
  set l3 := l2.dropWhile isPySpace with hl3
  have hct : clean_text s = rstrip l3 := rfl
  have hA1 : NoAmp l1 := by
    intro c hc
    rcases mem_stripPunct _ c hc with h | ⟨h1, -⟩
    · rw [h]; decide
    · exact noAmp_replaceAmp s c h1
  have hP1 : NoPunct l1 := by
    intro c hc
    rcases mem_stripPunct _ c hc with h | ⟨-, h2⟩
    · rw [h]; decide
    · exact h2
  have hmem2 : ∀ c ∈ l2, c = ' ' ∨ (c ∈ l1 ∧ isPySpace c = false) :=
    fun c hc => mem_collapseGo l1 c false hc
  have hA2 : NoAmp l2 := by
    intro c hc
    rcases hmem2 c hc with h | ⟨h1, -⟩
    · rw [h]; decide
    · exact hA1 c h1
  have hP2 : NoPunct l2 := by
    intro c hc
    rcases hmem2 c hc with h | ⟨h1, -⟩
    · rw [h]; decide
    · exact hP1 c h1
  have hW2 : WsOnlySpace l2 := by
    intro c hc hws
    rcases hmem2 c hc with h | ⟨-, h2⟩
    · exact h
    · rw [h2] at hws; cases hws
  have hN2 : NoTwoWs l2 := noTwoWs_collapseGo l1 false
  have hsub3 : ∀ c ∈ l3, c ∈ l2 :=
    fun c hc => (List.dropWhile_suffix isPySpace).sublist.mem hc
  have hN3 : NoTwoWs l3 := List.Chain'.suffix hN2 (List.dropWhile_suffix isPySpace)
  have hH3 : HeadNotWs l3 := headNotWs_dropWhile l2
  have hpre : (rstrip l3).IsPrefix l3 := rstrip_isPrefix l3
  have hsub4 : ∀ c ∈ rstrip l3, c ∈ l3 := fun c hc => hpre.sublist.mem hc
  have hN4 : NoTwoWs (rstrip l3) := by
    unfold rstrip
    exact noTwoWs_reverse _
      (List.Chain'.suffix (noTwoWs_reverse _ hN3) (List.dropWhile_suffix isPySpace))
  have hH4 : HeadNotWs (rstrip l3) := headNotWs_of_isPrefix _ _ hpre hH3
  have hL4 : LastNotWs (rstrip l3) := by
    unfold LastNotWs rstrip
    rw [List.reverse_reverse]
    exact headNotWs_dropWhile l3.reverse
  rw [hct]
  refine ⟨?_, ?_, ?_, hN4, hH4, hL4⟩
  · exact fun c hc => hA2 c (hsub3 c (hsub4 c hc))
  · exact fun c hc => hP2 c (hsub3 c (hsub4 c hc))
  · exact fun c hc hws => hW2 c (hsub3 c (hsub4 c hc)) hws

/-- Idempotence on character lists. -/
theorem clean_text_idem (s : List Char) :
    clean_text (clean_text s) = clean_text s := by
  obtain ⟨h1, h2, h3, h4, h5, h6⟩ := clean_text_good s
  exact clean_text_fixed _ h1 h2 h3 h4 h5 h6

/-- C9: the text normalizer is idempotent —
`clean_text (clean_text x) = clean_text x` for every input string. -/
theorem clean_textS_idem (x : String) :
    clean_textS (clean_textS x) = clean_textS x := by
  unfold clean_textS
  have hts : ((clean_text x.toList).asString).toList = clean_text x.toList := rfl
  rw [hts, clean_text_idem]

end Guard
